import Mathlib

/-!
Verification of `goodylili/goodness-workflows`.

Two programs are embedded:

* `src/bolder.go` — `replaceInlineCodeWithBold`, a single-pass scan over the
  bytes of a string that rewrites backtick markup.  The Go loop walks an index
  `i` over `input`, looks at `input[i-1]` and `input[i+1]` in the *original*
  buffer, and appends to a `strings.Builder`.  We embed the string as a
  `List Char` (every byte the algorithm inspects is the ASCII backtick, which
  in UTF-8 never occurs inside a multi-byte sequence, so byte positions and
  character positions agree for the tests performed), the builder output as
  the returned list, and the loop as structural recursion where the `prev`
  argument carries the original previous character and a fence consumes two
  list cells exactly as the Go loop advances `i` by two.

* `src/unnamed/part_000` — a `filepath.Walk` over a root directory converting
  every `.png` file to `.jpg`.  File-system paths are embedded as lists of
  path segments (each segment a `List Char`), the walk as a list of visit /
  traversal-error events, and the per-file I/O as an outcome record saying
  which of the fallible operations succeed, with the observable behaviour
  collected as an effect trace.
-/

namespace GoodnessWorkflows

/-- The backtick character, ASCII 0x60. -/
def bt : Char := Char.ofNat 96

/-- The asterisk character, ASCII 0x2A. -/
def ast : Char := Char.ofNat 42

/-- The dot character, ASCII 0x2E. -/
def dot : Char := Char.ofNat 46

/-- The scan loop of `replaceInlineCodeWithBold` (src/bolder.go lines 24-64).
`inCodeBlock` is the Go `inCodeBlock` flag, `prev` is `input[i-1]` in the
original buffer (`none` at `i = 0`), and the list is the rest of the input
from the cursor on.  `prevBacktick`/`nextBacktick` are the two adjacency
checks of lines 30-36; the three branches are lines 38-47 (fence toggle,
which writes "``" when entering and "```" when leaving a code block and skips
the next byte), lines 48-52 (a boundary backtick, written only when not in a
code block), and lines 53-59 (a lone backtick, replaced by "**" outside a
code block and copied inside one).  A non-backtick byte is copied (line 62). -/
def rewriteGo (inCodeBlock : Bool) (prev : Option Char) : List Char → List Char
  | [] => []
  | [c] =>
    -- at the last index `nextBacktick` is necessarily false
    if c == bt then
      if prev == some bt then
        (if inCodeBlock then [] else [c])
      else
        (if inCodeBlock then [c] else [ast, ast])
    else
      [c]
  | c :: d :: rest' =>
    if c == bt then
      if (prev == some bt) && (d == bt) then
        (if inCodeBlock then [bt, bt, bt] else [bt, bt]) ++
          rewriteGo (!inCodeBlock) (some bt) rest'
      else if (prev == some bt) || (d == bt) then
        (if inCodeBlock then [] else [c]) ++ rewriteGo inCodeBlock (some c) (d :: rest')
      else
        (if inCodeBlock then [c] else [ast, ast]) ++ rewriteGo inCodeBlock (some c) (d :: rest')
    else
      c :: rewriteGo inCodeBlock (some c) (d :: rest')

/-- `replaceInlineCodeWithBold` (src/bolder.go line 20): the scan starts
outside any code block with no previous character. -/
def replaceInlineCodeWithBold (input : List Char) : List Char :=
  rewriteGo false none input

/-- Number of backtick characters in a text. -/
def countBT (l : List Char) : Nat := l.count bt

/-- `noAdjB prev l` holds when no character of `l` is a backtick whose
immediate predecessor (in the original buffer, `prev` being the character
just before `l`) is also a backtick — i.e. `prev :: l` has no two adjacent
backticks. -/
def noAdjB (prev : Option Char) : List Char → Bool
  | [] => true
  | c :: rest => (!((prev == some bt) && (c == bt))) && noAdjB (some c) rest

/-- A text with no two adjacent backtick characters. -/
def noAdjacentBackticks (l : List Char) : Bool := noAdjB none l

/-- The subsequence of characters that are neither backtick nor asterisk. -/
def filterOther (l : List Char) : List Char :=
  l.filter (fun c => (!(c == bt)) && (!(c == ast)))

theorem ast_ne_bt : (ast = bt) = False := by simp [ast, bt]

theorem bt_ne_ast : (bt = ast) = False := by simp [ast, bt]

/-- Each loop step at most multiplies the number of backticks by 3/2: the
worst branch is the fence toggle out of code-block mode, which consumes two
input backticks and emits three. -/
theorem rewriteGo_count (inCB : Bool) (prev : Option Char) (l : List Char) :
    2 * countBT (rewriteGo inCB prev l) ≤ 3 * countBT l := by
  induction inCB, prev, l using rewriteGo.induct <;>
    simp_all [rewriteGo, countBT, List.count_cons, List.count_append, ast_ne_bt] <;>
    (repeat' split) <;> simp_all [List.count_cons, ast_ne_bt] <;> omega

/-- A text without backticks is returned unchanged: every character takes the
copy branch of the loop. -/
theorem rewriteGo_no_bt_id (inCB : Bool) (prev : Option Char) (l : List Char)
    (h : bt ∉ l) : rewriteGo inCB prev l = l := by
  induction inCB, prev, l using rewriteGo.induct <;> simp_all [rewriteGo]

/-- If the input has no two adjacent backticks and the scan starts outside a
code block, every backtick takes the lone-backtick branch, is rewritten to
two asterisks, and the output contains no backtick at all. -/
theorem rewriteGo_noAdj_no_bt (inCB : Bool) (prev : Option Char) (l : List Char)
    (hc : inCB = false) (h : noAdjB prev l = true) :
    bt ∉ rewriteGo inCB prev l := by
  induction inCB, prev, l using rewriteGo.induct <;>
    simp_all [rewriteGo, noAdjB, ast_ne_bt, bt_ne_ast]
  all_goals (intro hh; simp_all)

/-- Dropping every backtick and asterisk from the output gives the same
character sequence as dropping them from the input: the loop copies every
other character and only ever emits backticks and asterisks otherwise. -/
theorem rewriteGo_filterOther (inCB : Bool) (prev : Option Char) (l : List Char) :
    filterOther (rewriteGo inCB prev l) = filterOther l := by
  induction inCB, prev, l using rewriteGo.induct <;>
    simp_all [rewriteGo, filterOther, List.filter_append, List.filter_cons,
      ast_ne_bt, bt_ne_ast] <;>
    (repeat' split) <;> simp_all

/-- C1 (counterexample): the claim says `replaceInlineCodeWithBold` maps
"```code```" to "``code```".  It does not: at index 0 the first backtick has
no previous character, so `prevBacktick` is false and the boundary branch
writes it through; the fence toggle only fires at index 1, emitting two more
backticks, so the opening run keeps three backticks and the whole string
comes back unchanged. -/
theorem c1_counterexample :
    ¬ replaceInlineCodeWithBold "```code```".data = "``code```".data := by
  decide

/-- C1 (amended): "```code```" is returned unchanged, and the fence-toggle
branch itself (reached when the previous character and the next character
are both backticks) emits two backticks when toggling into code-block mode
and three when toggling out. -/
theorem c1_fence_toggle_amended :
    replaceInlineCodeWithBold "```code```".data = "```code```".data ∧
      ∀ (inCB : Bool) (rest : List Char),
        rewriteGo inCB (some bt) (bt :: bt :: rest) =
          (if inCB then [bt, bt, bt] else [bt, bt]) ++
            rewriteGo (!inCB) (some bt) rest := by
  refine ⟨by decide, fun inCB rest => ?_⟩
  simp [rewriteGo]

/-- C2 (counterexample): the claim says a boundary backtick of a two-backtick
run is dropped from the output when the mode flag is not inside a fence.  On
input "``" both backticks are such boundary backticks and the whole scan
happens outside any fence, so the claim predicts an output with no backtick;
the code instead passes both through unchanged. -/
theorem c2_counterexample :
    replaceInlineCodeWithBold "``".data = "``".data ∧
      bt ∈ replaceInlineCodeWithBold "``".data := by
  decide

/-- C2 (amended): a backtick adjacent to a backtick on exactly one side in
the original buffer is passed through unchanged when the mode flag is not
inside a fence, and dropped entirely when it is inside a fence — the
opposite orientation of the claim. -/
theorem c2_boundary_backtick_amended (inCB : Bool) (prev : Option Char)
    (rest : List Char)
    (h : ((prev == some bt) ^^ (rest.head? == some bt)) = true) :
    rewriteGo inCB prev (bt :: rest) =
      (if inCB then [] else [bt]) ++ rewriteGo inCB (some bt) rest := by
  cases rest with
  | nil =>
    simp only [Bool.xor_false, List.head?_nil] at h
    simp_all [rewriteGo]
  | cons d rest' =>
    simp only [List.head?_cons] at h
    by_cases hp : (prev == some bt) = true <;>
      by_cases hd : (d == bt) = true <;> simp_all [rewriteGo]

/-- C2 (witness): the amended boundary rule applied to the input "``" seen
from index 0: previous character absent, next character a backtick. -/
theorem c2_boundary_backtick_amended_witness :
    (((none : Option Char) == some bt) ^^ (([bt] : List Char).head? == some bt)) = true ∧
      rewriteGo false none (bt :: [bt]) =
        (if false then [] else [bt]) ++ rewriteGo false (some bt) [bt] :=
  ⟨by decide, c2_boundary_backtick_amended false none [bt] (by decide)⟩

/-- C3 (counterexample): the output can contain MORE backticks than the
input.  On six consecutive backticks the scan emits a boundary backtick, a
two-backtick opening fence, a three-backtick closing fence and a final
boundary backtick: seven backticks from six. -/
theorem c3_counterexample :
    countBT (replaceInlineCodeWithBold (List.replicate 6 bt)) = 7 ∧
      ¬ countBT (replaceInlineCodeWithBold (List.replicate 6 bt)) ≤
          countBT (List.replicate 6 bt) := by
  decide

/-- C3 (amended): the backtick count of the output is at most 3/2 times the
backtick count of the input; the worst case is a closing fence, which turns
two consumed backticks into three emitted ones. -/
theorem c3_backtick_count_amended (x : List Char) :
    2 * countBT (replaceInlineCodeWithBold x) ≤ 3 * countBT x :=
  rewriteGo_count false none x

/-- C4 (counterexample): the transform is not idempotent.  Six consecutive
backticks map to seven consecutive backticks, which map to eight. -/
theorem c4_counterexample :
    ¬ replaceInlineCodeWithBold (replaceInlineCodeWithBold (List.replicate 6 bt)) =
        replaceInlineCodeWithBold (List.replicate 6 bt) := by
  decide

/-- C4 (amended): applying the transform twice equals applying it once for
every input with no two adjacent backtick characters: on such input every
backtick takes the lone-backtick branch and becomes "**", the output is
backtick-free, and a backtick-free text is a fixed point. -/
theorem c4_idempotent_amended (x : List Char)
    (h : noAdjacentBackticks x = true) :
    replaceInlineCodeWithBold (replaceInlineCodeWithBold x) =
      replaceInlineCodeWithBold x :=
  rewriteGo_no_bt_id false none _ (rewriteGo_noAdj_no_bt false none x rfl h)

/-- C4 (witness): the amended idempotence at the input "`a`". -/
theorem c4_idempotent_amended_witness :
    noAdjacentBackticks "`a`".data = true ∧
      replaceInlineCodeWithBold (replaceInlineCodeWithBold "`a`".data) =
        replaceInlineCodeWithBold "`a`".data :=
  ⟨by decide, c4_idempotent_amended "`a`".data (by decide)⟩

/-- C6: a backtick with no adjacent backtick on either side in the original
buffer is replaced by "**" when the mode flag is not inside a fence and
passed through unchanged when it is; in particular "`a`" maps to "**a**". -/
theorem c6_lone_backtick :
    (∀ (inCB : Bool) (prev : Option Char) (rest : List Char),
        (prev == some bt) = false → (rest.head? == some bt) = false →
        rewriteGo inCB prev (bt :: rest) =
          (if inCB then [bt] else [ast, ast]) ++ rewriteGo inCB (some bt) rest) ∧
      replaceInlineCodeWithBold "`a`".data = "**a**".data := by
  refine ⟨fun inCB prev rest hp hn => ?_, by decide⟩
  cases rest with
  | nil => simp_all [rewriteGo]
  | cons d rest' =>
    simp only [List.head?_cons] at hn
    simp_all [rewriteGo]

/-- C6 (witness): the lone-backtick rule applied at index 0 of "`a", outside
a fence. -/
theorem c6_lone_backtick_witness :
    (((none : Option Char) == some bt) = false ∧
        ((['a'] : List Char).head? == some bt) = false) ∧
      rewriteGo false none (bt :: ['a']) =
        (if false then [bt] else [ast, ast]) ++ rewriteGo false (some bt) ['a'] :=
  ⟨⟨by decide, by decide⟩, c6_lone_backtick.1 false none ['a'] (by decide) (by decide)⟩

/-- C7: an input containing no backtick character is returned unchanged. -/
theorem c7_no_backtick_identity (x : List Char) (h : bt ∉ x) :
    replaceInlineCodeWithBold x = x :=
  rewriteGo_no_bt_id false none x h

/-- C7 (witness): the identity property at the input "hello, world". -/
theorem c7_no_backtick_identity_witness :
    bt ∉ "hello, world".data ∧
      replaceInlineCodeWithBold "hello, world".data = "hello, world".data :=
  ⟨by decide, c7_no_backtick_identity "hello, world".data (by decide)⟩

/-- C10: the subsequence of characters other than backtick and asterisk is
the same, in order, in the input and in the output: the transform only
inserts, deletes or rewrites backticks and asterisks. -/
theorem c10_other_characters_preserved (x : List Char) :
    filterOther (replaceInlineCodeWithBold x) = filterOther x :=
  rewriteGo_filterOther false none x

/-!
The PNG → JPEG directory walker of `src/unnamed/part_000`.  File-system paths
are embedded as lists of path segments (`List (List Char)`), never containing
separators, so `filepath.Base` is the last segment, `filepath.Ext` acts on
the last segment, and `filepath.Join dir name` appends one segment.  The
fallible I/O calls (`os.ReadFile`, `png.Decode`, `jpeg.Encode`,
`os.WriteFile`, `os.RemoveAll`) are driven by an outcome record saying which
of them succeed for the visited file; the observable behaviour of the walker
body — reads, writes, deletions, log lines, success prints — is collected as
an ordered effect trace, and `filepath.Walk` is a fold over a list of
traversal events, each either a visited entry or a directory-read error
passed to the walk function as a non-nil `err`. -/

/-- Segment-level model of Go `filepath.Ext` applied to a file name: the
suffix beginning at the last dot, or empty when the name contains no dot. -/
def goExt (name : List Char) : List Char :=
  if name.contains dot then
    dot :: (name.reverse.takeWhile (fun c => !(c == dot))).reverse
  else []

/-- Segment-level model of Go `filepath.Base`: the last path segment. -/
def lastSeg (p : List (List Char)) : List Char := p.getLastD []

/-- Lines 54-55 of the walker: `baseName := filepath.Base(path)` and
`outputPath := filepath.Join(directoryPath, baseName[:len(baseName)-len(extension)]+".jpg")`.
The join is with `directoryPath`, the fixed root of the walk, not with the
directory containing `path`. -/
def outputPath (directoryPath : List (List Char)) (path : List (List Char)) :
    List (List Char) :=
  let baseName := lastSeg path
  let extension := goExt baseName
  directoryPath ++ [baseName.take (baseName.length - extension.length) ++ ".jpg".data]

/-- Which of the five fallible I/O operations succeed when one file is
processed; the byte contents of the images are irrelevant to the claims. -/
structure IoOutcome where
  readOk : Bool
  decodeOk : Bool
  encodeOk : Bool
  writeOk : Bool
  removeOk : Bool
  deriving DecidableEq

/-- `ToJpeg` (part_000 lines 14-26): `png.Decode` then `jpeg.Encode`, each
returning its error and aborting the conversion on failure. -/
def ToJpeg (o : IoOutcome) : Except (List Char) Unit :=
  if !o.decodeOk then Except.error ("png decode error".data)
  else if !o.encodeOk then Except.error ("jpeg encode error".data)
  else Except.ok ()

/-- An entry handed to the walk function: a directory or a regular file. -/
inductive FsEntry
  | dir (path : List (List Char))
  | file (path : List (List Char))
  deriving DecidableEq

/-- One observable action of the walker body, in program order. -/
inductive FsEffect
  | readFile (p : List (List Char))
  | logf (msg : List Char)
  | writeFile (p : List (List Char))
  | removeAll (p : List (List Char))
  | printSuccess (p : List (List Char))
  deriving DecidableEq

/-- The walk function body (part_000 lines 31-72) on one visited entry:
directories are skipped; a file whose extension is exactly ".png" is read,
converted, written to `outputPath` and then deleted, each failure being
logged and ending the processing of that file with a nil return (the walk
continues). -/
def processEntry (directoryPath : List (List Char)) (e : FsEntry)
    (o : IoOutcome) : List FsEffect :=
  match e with
  | FsEntry.dir _ => []
  | FsEntry.file path =>
    let extension := goExt (lastSeg path)
    if extension == ".png".data then
      FsEffect.readFile path ::
        (if !o.readOk then [FsEffect.logf ("Failed to read image file".data)]
         else
           match ToJpeg o with
           | Except.error _ => [FsEffect.logf ("Failed to convert image".data)]
           | Except.ok _ =>
             FsEffect.writeFile (outputPath directoryPath path) ::
               (if !o.writeOk then [FsEffect.logf ("Failed to write JPEG file".data)]
                else
                  FsEffect.removeAll path ::
                    (if !o.removeOk then
                      [FsEffect.logf ("Failed to delete PNG file".data)]
                     else [FsEffect.printSuccess (outputPath directoryPath path)])))
    else []

/-- One event of the traversal: either an entry visited with the given I/O
outcome, or a directory-read error `err` passed to the walk function. -/
inductive WalkStep
  | visit (e : FsEntry) (o : IoOutcome)
  | dirError (msg : List Char)
  deriving DecidableEq

/-- `filepath.Walk` plus the `log.Fatalf` of `main` (lines 31-77): visits are
processed in order and always return nil, so the walk continues; a traversal
error is returned by the walk function (lines 32-34), aborts the walk, and
`main` surfaces it fatally (lines 75-77).  The result is the effect trace and
the fatal message, if any. -/
def walkRun (directoryPath : List (List Char)) :
    List WalkStep → List FsEffect × Option (List Char)
  | [] => ([], none)
  | WalkStep.dirError m :: _ => ([], some m)
  | WalkStep.visit e o :: rest =>
    let r := walkRun directoryPath rest
    (processEntry directoryPath e o ++ r.1, r.2)

/-- The outcome record in which every I/O operation succeeds. -/
def allOk : IoOutcome := ⟨true, true, true, true, true⟩

/-- C5 (counterexample): for the file sub/a.png under the root r, the JPEG is
written to r/a.jpg — the root directory — and NOT to the sibling path
sub/a.jpg, because line 55 joins the output name with `directoryPath`, the
fixed root, instead of the directory containing the file. -/
theorem c5_counterexample :
    FsEffect.writeFile ["r".data, "a.jpg".data] ∈
        processEntry ["r".data]
          (FsEntry.file ["r".data, "sub".data, "a.png".data]) allOk ∧
      FsEffect.writeFile ["r".data, "sub".data, "a.jpg".data] ∉
        processEntry ["r".data]
          (FsEntry.file ["r".data, "sub".data, "a.png".data]) allOk := by
  decide

/-- C5 (amended): every write performed by the walker body targets the path
obtained by joining the ROOT directory with the file's base name carrying a
".jpg" extension; when reading and converting succeed for a ".png" file that
write is performed; and only for a file directly inside the root directory
does that target coincide with the sibling path of the original file. -/
theorem c5_write_target_amended (directoryPath : List (List Char))
    (path : List (List Char)) (o : IoOutcome) :
    (∀ q, FsEffect.writeFile q ∈ processEntry directoryPath (FsEntry.file path) o →
        q = directoryPath ++
          [(lastSeg path).take
              ((lastSeg path).length - (goExt (lastSeg path)).length) ++ ".jpg".data]) ∧
      (o.readOk = true → o.decodeOk = true → o.encodeOk = true →
        (goExt (lastSeg path) == ".png".data) = true →
        FsEffect.writeFile (outputPath directoryPath path) ∈
          processEntry directoryPath (FsEntry.file path) o) ∧
      (∀ name, path = directoryPath ++ [name] →
        outputPath directoryPath path =
          path.dropLast ++
            [name.take (name.length - (goExt name).length) ++ ".jpg".data]) := by
  obtain ⟨r, d, e, w, rm⟩ := o
  refine ⟨?_, ?_, ?_⟩
  · intro q hq
    cases r <;> cases d <;> cases e <;> cases w <;> cases rm <;>
      simp_all [processEntry, ToJpeg, outputPath]
  · intro hr hd he hext
    simp_all [processEntry, ToJpeg, outputPath]
  · intro name hpath
    subst hpath
    simp [outputPath, lastSeg]

/-- C5 (witness): the walker writes r/sub/a.png (all operations succeeding)
to the computed output path. -/
theorem c5_write_target_amended_witness :
    allOk.readOk = true ∧ allOk.decodeOk = true ∧ allOk.encodeOk = true ∧
      (goExt (lastSeg ["r".data, "sub".data, "a.png".data]) == ".png".data) = true ∧
      FsEffect.writeFile (outputPath ["r".data] ["r".data, "sub".data, "a.png".data]) ∈
        processEntry ["r".data]
          (FsEntry.file ["r".data, "sub".data, "a.png".data]) allOk :=
  ⟨rfl, rfl, rfl, by decide,
    (c5_write_target_amended ["r".data] ["r".data, "sub".data, "a.png".data]
        allOk).2.1 rfl rfl rfl (by decide)⟩

/-- C8: a per-file failure (read, decode, encode, write or delete) is logged
and only skips that file — a visit step never changes the rest of the walk or
its fatal status — whereas a directory-traversal error terminates the walk
immediately, discarding the remaining steps, and is surfaced as the fatal
message. -/
theorem c8_error_handling :
    (∀ (root : List (List Char)) (e : FsEntry) (o : IoOutcome) (rest : List WalkStep),
        walkRun root (WalkStep.visit e o :: rest) =
          (processEntry root e o ++ (walkRun root rest).1, (walkRun root rest).2)) ∧
      (∀ (root : List (List Char)) (m : List Char) (rest : List WalkStep),
          walkRun root (WalkStep.dirError m :: rest) = ([], some m)) ∧
      (∀ (root : List (List Char)) (path : List (List Char)) (o : IoOutcome),
          (goExt (lastSeg path) == ".png".data) = true →
          (o.readOk = false →
              FsEffect.logf ("Failed to read image file".data) ∈
                processEntry root (FsEntry.file path) o) ∧
            (o.readOk = true → (o.decodeOk && o.encodeOk) = false →
              FsEffect.logf ("Failed to convert image".data) ∈
                processEntry root (FsEntry.file path) o) ∧
            (o.readOk = true → o.decodeOk = true → o.encodeOk = true →
              o.writeOk = false →
              FsEffect.logf ("Failed to write JPEG file".data) ∈
                processEntry root (FsEntry.file path) o) ∧
            (o.readOk = true → o.decodeOk = true → o.encodeOk = true →
              o.writeOk = true → o.removeOk = false →
              FsEffect.logf ("Failed to delete PNG file".data) ∈
                processEntry root (FsEntry.file path) o)) := by
  refine ⟨fun root e o rest => rfl, fun root m rest => rfl, ?_⟩
  intro root path o hext
  obtain ⟨r, d, e, w, rm⟩ := o
  cases r <;> cases d <;> cases e <;> cases w <;> cases rm <;>
    simp_all [processEntry, ToJpeg]

/-- C8 (witness): a failing read of a.png is logged by the walker body. -/
theorem c8_error_handling_witness :
    (goExt (lastSeg ["a.png".data]) == ".png".data) = true ∧
      (⟨false, true, true, true, true⟩ : IoOutcome).readOk = false ∧
      FsEffect.logf ("Failed to read image file".data) ∈
        processEntry [] (FsEntry.file ["a.png".data])
          ⟨false, true, true, true, true⟩ :=
  ⟨by decide, rfl,
    (c8_error_handling.2.2 [] ["a.png".data] ⟨false, true, true, true, true⟩
        (by decide)).1 rfl⟩

/-- C9: the original ".png" file is deleted only when reading, converting and
writing all succeeded, and the deletion comes after the write in the effect
trace; if reading, converting or writing fails, no deletion of the original
is attempted. -/
theorem c9_delete_after_write (root : List (List Char))
    (path : List (List Char)) (o : IoOutcome) :
    (FsEffect.removeAll path ∈ processEntry root (FsEntry.file path) o →
        o.readOk = true ∧ o.decodeOk = true ∧ o.encodeOk = true ∧ o.writeOk = true ∧
          (processEntry root (FsEntry.file path) o).take 3 =
            [FsEffect.readFile path, FsEffect.writeFile (outputPath root path),
              FsEffect.removeAll path]) ∧
      (o.readOk = false ∨ o.decodeOk = false ∨ o.encodeOk = false ∨ o.writeOk = false →
        FsEffect.removeAll path ∉ processEntry root (FsEntry.file path) o) := by
  obtain ⟨r, d, e, w, rm⟩ := o
  by_cases hext : (goExt (lastSeg path) == ".png".data) = true <;>
    cases r <;> cases d <;> cases e <;> cases w <;> cases rm <;>
      simp_all [processEntry, ToJpeg]

/-- C9 (witness): when every operation on a.png succeeds, the original is
deleted, and only after the JPEG write in the trace. -/
theorem c9_delete_after_write_witness :
    FsEffect.removeAll ["a.png".data] ∈
        processEntry [] (FsEntry.file ["a.png".data]) allOk ∧
      (allOk.readOk = true ∧ allOk.decodeOk = true ∧ allOk.encodeOk = true ∧
        allOk.writeOk = true ∧
        (processEntry [] (FsEntry.file ["a.png".data]) allOk).take 3 =
          [FsEffect.readFile ["a.png".data],
            FsEffect.writeFile (outputPath [] ["a.png".data]),
            FsEffect.removeAll ["a.png".data]]) :=
  ⟨by decide, (c9_delete_after_write [] ["a.png".data] allOk).1 (by decide)⟩

end GoodnessWorkflows
